import Mathlib

/-!
Verification development for a repository of vendored C headers
(`rpc/pmap_rmt.h`, `stdio.h`, `sys/hwprobe.h`) together with the buffered
character-stream design the repository's specification defines on top of them.

Part 1 embeds the one function with executable logic in the headers,
`__riscv_hwprobe_one` from `sys/hwprobe.h` (lines 102-127), together with a
line-count model of the three header files.

Part 2 models the specification's `Stream` component (buffered I/O layer);
none of that component's code ships in the repository, so every definition in
that part is modelled from the specification text and marked as such.
-/

set_option autoImplicit false

/-! ### Part 1: the `sys/hwprobe.h` helper -/

/-- `struct riscv_hwprobe` from `sys/hwprobe.h`: a signed 64-bit `key` and an
unsigned 64-bit `value`.  No arithmetic is performed on either field by the
embedded code, so `Int` and `Nat` model them faithfully. -/
structure riscv_hwprobe where
  key : Int
  value : Nat
deriving DecidableEq, Repr

/-- The `ENOSYS` errno value returned when the probe function pointer is NULL. -/
def ENOSYS : Int := 38

/-- The `ENOENT` errno value returned when the kernel reports an unsupported key. -/
def ENOENT : Int := 2

/-- The type `__riscv_hwprobe_t` of probe functions.  At the one call site in
`__riscv_hwprobe_one` the first argument points at a single pair, so the
memory behind the pointer is modelled as one `riscv_hwprobe` value; the
function returns its `int` result together with the pair as left in memory.
Arguments, in order: the pair, `pair_count`, `cpusetsize`, `cpus`
(`none` models a NULL pointer), `flags`. -/
def HwprobeFuncT : Type :=
  riscv_hwprobe → Nat → Nat → Option Unit → Nat → Int × riscv_hwprobe

/-- One invocation of a probe function, recording the arguments passed. -/
structure HwprobeCall where
  pair : riscv_hwprobe
  pair_count : Nat
  cpusetsize : Nat
  cpus : Option Unit
  flags : Nat
deriving DecidableEq, Repr

/-- Result of `__riscv_hwprobe_one`: the returned `int`, the value stored
through the `value` pointer (`none` when the pointee is left untouched), and
the list of probe-function invocations performed. -/
structure HwprobeOneResult where
  rc : Int
  written : Option Nat
  calls : List HwprobeCall
deriving DecidableEq, Repr

/-- `__riscv_hwprobe_one` from `sys/hwprobe.h` lines 102-127.  `hwprobe_func`
is `none` when the function pointer is NULL.  The local `pair` is declared
uninitialized in the C code and only its `key` field is assigned before the
call, so the indeterminate initial contents of `pair.value` appear as the
parameter `pairValueInit`. -/
def __riscv_hwprobe_one (hwprobe_func : Option HwprobeFuncT) (key : Int)
    (pairValueInit : Nat) : HwprobeOneResult :=
  match hwprobe_func with
  | none => ⟨ENOSYS, none, []⟩
  | some f =>
    let pair : riscv_hwprobe := ⟨key, pairValueInit⟩
    let call : HwprobeCall := ⟨pair, 1, 0, none, 0⟩
    let r := f pair 1 0 none 0
    if r.1 ≠ 0 then ⟨r.1, none, [call]⟩
    else if r.2.key < 0 then ⟨ENOENT, none, [call]⟩
    else ⟨0, some r.2.value, [call]⟩

/-! ### Line counts of the source listing -/

/-- Line count of `src/lib/libc/include/generic-freebsd/rpc/pmap_rmt.h`. -/
def pmapRmtLines : Nat := 65

/-- Line count of `src/lib/libc/include/generic-glibc/stdio.h`. -/
def stdioLines : Nat := 975

/-- Line count of `src/lib/libc/include/generic-glibc/sys/hwprobe.h`. -/
def hwprobeLines : Nat := 130

/-- Total line count of the three vendored header files. -/
def sourceListingLines : Nat := pmapRmtLines + stdioLines + hwprobeLines

/-- Lines 102-127 of `sys/hwprobe.h` hold the body of `__riscv_hwprobe_one`,
the only executable function logic anywhere in the listing; every other line
is a flat declaration, comment, or preprocessor line with no logic to port. -/
def hwprobeOneLogicLines : Nat := 127 - 102 + 1

/-! ### Part 2: the specification's Stream component

The repository ships no implementation of the buffered stream layer; only the
specification describes it.  Everything below is modelled from the
specification text (sections 3-8). -/

namespace Spec

/-- Modelled from the spec: buffering `mode`, one of
unbuffered, line-buffered, fully-buffered. -/
inductive BufMode where
  | unbuffered
  | lineBuffered
  | fullyBuffered
deriving DecidableEq, Repr

/-- Modelled from the spec: the stream `direction`, one of idle, reading,
writing. -/
inductive Direction where
  | idle
  | reading
  | writing
deriving DecidableEq, Repr

/-- Modelled from the spec: the `whence` argument of a seek. -/
inductive Whence where
  | fromStart
  | fromCur
  | fromEnd
deriving DecidableEq, Repr

/-- Modelled from the spec: result of a raw device operation, a value or a
device failure. -/
inductive DevResult (α : Type) where
  | ok : α → DevResult α
  | devErr : DevResult α
deriving DecidableEq, Repr

/-- Modelled from the spec (section 6): the external raw-device collaborator.
`δ` is the device's state; bytes are modelled as `Nat` (opaque payloads).
`read d maxLen` returns the bytes obtained (at most `maxLen` by the device
contract) and the new device state; `write d bs` returns the count written;
`seek` returns the new absolute position. -/
structure Device (δ : Type) where
  read : δ → Nat → DevResult (List Nat × δ)
  write : δ → List Nat → DevResult (Nat × δ)
  seek : δ → Int → Whence → DevResult (Nat × δ)
  close : δ → DevResult δ

/-- Modelled from the spec (section 7): the error taxonomy.  `endOfStream` is
a normal termination signal, kept alongside the two errors for convenience. -/
inductive StreamError where
  | usageError
  | deviceError
  | endOfStream
deriving DecidableEq, Repr

/-- Modelled from the spec (section 3): the Stream data model.  The buffer is
the filled portion only, so the `write_end` cursor is `buf.length`; `read_pos`
indexes into `buf`.  `position` is the logical device offset. -/
structure Stream (δ : Type) where
  dev : δ
  buf : List Nat
  read_pos : Nat
  capacity : Nat
  mode : BufMode
  direction : Direction
  eof_flag : Bool
  error_flag : Bool
  position : Nat
  closed : Bool

/-- The `write_end` cursor of the spec's buffer: the end of the filled
portion. -/
def write_end {δ : Type} (s : Stream δ) : Nat := s.buf.length

/-- Modelled from the spec: `open(source, mode)` acquires the device handle
and creates an empty, idle stream; the buffer (of `cap` bytes) is not filled
eagerly. -/
def openStream {δ : Type} (d : δ) (mode : BufMode) (cap : Nat) : Stream δ :=
  { dev := d, buf := [], read_pos := 0, capacity := cap, mode := mode,
    direction := .idle, eof_flag := false, error_flag := false,
    position := 0, closed := false }

/-- `true` exactly on the writing direction. -/
def isWriting : Direction → Bool
  | .writing => true
  | _ => false

/-- Modelled from the spec (sections 4.1 and 7): the partial-write retry
loop.  Pending bytes are written through the device until the full range is
written, the device reports an error, or zero progress is made twice in a row
(`zeroFlag` records that the previous write made zero progress), the last two
cases yielding a device error.  The second component counts the device writes
issued. -/
def flushPending {δ : Type} (dev : Device δ) (d : δ) (pending : List Nat)
    (zeroFlag : Bool) : DevResult δ × Nat :=
  match pending with
  | [] => (.ok d, 0)
  | p :: ps =>
    match dev.write d (p :: ps) with
    | .devErr => (.devErr, 1)
    | .ok (n, d') =>
      if n = 0 then
        if zeroFlag then (.devErr, 1)
        else
          let r := flushPending dev d' (p :: ps) true
          (r.1, r.2 + 1)
      else
        let r := flushPending dev d' ((p :: ps).drop n) false
        (r.1, r.2 + 1)
termination_by 2 * pending.length + (if zeroFlag then 0 else 1)
decreasing_by
  all_goals simp_all
  all_goals omega

/-- Modelled from the spec: flush the write buffer through the retry loop,
emptying it and advancing `position` on success, setting the sticky
`error_flag` on failure.  Shared by `flush`, the buffer-full path of
`writeByte`, and the implicit flushes of `readByte`, `seek` and `close`. -/
def flushWrite {δ : Type} (dev : Device δ) (s : Stream δ) :
    Except StreamError Unit × Stream δ :=
  match flushPending dev s.dev s.buf false with
  | (.ok d', _) =>
    (.ok (), { s with
        dev := d', buf := [], read_pos := 0,
        position := s.position + s.buf.length })
  | (.devErr, _) => (.error .deviceError, { s with error_flag := true })

/-- Modelled from the spec: switching to writing direction; a stream in
reading direction discards its unread buffered bytes first. -/
def startWriting {δ : Type} (s : Stream δ) : Stream δ :=
  match s.direction with
  | .reading => { s with buf := [], read_pos := 0, direction := .writing }
  | _ => { s with direction := .writing }

/-- Modelled from the spec: `writeByte(b)`.  Fails on a closed stream or with
the sticky error set; switches direction (discarding unread bytes); flushes
first when the buffer is full; appends the byte; then flushes per mode
(unbuffered: always; line-buffered: when the byte is a newline, byte 10). -/
def writeByte {δ : Type} (dev : Device δ) (s : Stream δ) (b : Nat) :
    Except StreamError Unit × Stream δ :=
  if s.closed then (.error .usageError, s)
  else if s.error_flag then (.error .deviceError, s)
  else
    match (if (startWriting s).capacity ≤ (startWriting s).buf.length
           then flushWrite dev (startWriting s)
           else (.ok (), startWriting s)) with
    | (.error e, s2) => (.error e, s2)
    | (.ok _, s2) =>
      match s2.mode with
      | .unbuffered => flushWrite dev { s2 with buf := s2.buf ++ [b] }
      | .lineBuffered =>
        if b = 10 then flushWrite dev { s2 with buf := s2.buf ++ [b] }
        else (.ok (), { s2 with buf := s2.buf ++ [b] })
      | .fullyBuffered => (.ok (), { s2 with buf := s2.buf ++ [b] })

/-- Modelled from the spec: `writeBytes(seq)`, the byte-wise buffering policy
applied over a range; a zero-length write is a no-op that touches no flags.
Returns the count written on success. -/
def writeBytes {δ : Type} (dev : Device δ) (s : Stream δ) (l : List Nat) :
    Except StreamError Nat × Stream δ :=
  match l with
  | [] => (.ok 0, s)
  | b :: rest =>
    match writeByte dev s b with
    | (.error e, s') => (.error e, s')
    | (.ok _, s') =>
      match writeBytes dev s' rest with
      | (.ok n, s'') => (.ok (n + 1), s'')
      | (.error e, s'') => (.error e, s'')

/-- Modelled from the spec: `flush()`; in writing direction it pushes all
buffered, unwritten bytes through the retry loop; in reading or idle
direction it is a no-op. -/
def flush {δ : Type} (dev : Device δ) (s : Stream δ) :
    Except StreamError Unit × Stream δ :=
  if s.closed then (.error .usageError, s)
  else if s.error_flag then (.error .deviceError, s)
  else if isWriting s.direction then flushWrite dev s
  else (.ok (), s)

/-- Modelled from the spec: the buffered-read core of `readByte()`.
Buffered bytes are served first; with the sticky `eof_flag` set and nothing
buffered the stream stays at end of stream; otherwise one device read of up
to `capacity` bytes refills the buffer, setting `eof_flag` on a zero-byte
read and `error_flag` on device failure. -/
def refillRead {δ : Type} (dev : Device δ) (s2 : Stream δ) :
    Except StreamError Nat × Stream δ :=
  if h : s2.read_pos < s2.buf.length then
    (.ok (s2.buf.get ⟨s2.read_pos, h⟩),
     { s2 with read_pos := s2.read_pos + 1 })
  else if s2.eof_flag then (.error .endOfStream, s2)
  else
    match dev.read s2.dev s2.capacity with
    | .devErr => (.error .deviceError, { s2 with error_flag := true })
    | .ok ([], d') => (.error .endOfStream, { s2 with dev := d', eof_flag := true })
    | .ok (b :: rest, d') =>
      (.ok b, { s2 with
          dev := d', buf := (b :: rest).take s2.capacity, read_pos := 1,
          position := s2.position + ((b :: rest).take s2.capacity).length })

/-- Modelled from the spec: `readByte()`.  Fails fast on a closed stream or
a sticky error; a refill while in writing direction first flushes pending
writes; the stream then switches to reading direction and serves a byte via
`refillRead`. -/
def readByte {δ : Type} (dev : Device δ) (s : Stream δ) :
    Except StreamError Nat × Stream δ :=
  if s.closed then (.error .usageError, s)
  else if s.error_flag then (.error .deviceError, s)
  else
    match (if isWriting s.direction then flushWrite dev s
           else (.ok (), s)) with
    | (.error e, s1) => (.error e, s1)
    | (.ok _, s1) => refillRead dev { s1 with direction := Direction.reading }

/-- Modelled from the spec: `readBytes(n)` repeats the single-byte logic
until `n` bytes are collected, the device is exhausted, or an error occurs,
returning a short count in the latter cases (the error is distinguished via
`error_flag`). -/
def readBytes {δ : Type} (dev : Device δ) (s : Stream δ) (n : Nat) :
    List Nat × Stream δ :=
  match n with
  | 0 => ([], s)
  | m + 1 =>
    match readByte dev s with
    | (.error _, s') => ([], s')
    | (.ok b, s') =>
      let r := readBytes dev s' m
      (b :: r.1, r.2)

/-- Modelled from the spec: `seek(offset, whence)` flushes pending writes
first, discards buffered unread bytes, issues a device seek, resets the
cursors to empty and updates `position`; a device seek failure is a device
error. -/
def seek {δ : Type} (dev : Device δ) (s : Stream δ) (off : Int) (w : Whence) :
    Except StreamError Unit × Stream δ :=
  if s.closed then (.error .usageError, s)
  else if s.error_flag then (.error .deviceError, s)
  else
    match (if isWriting s.direction then flushWrite dev s
           else (.ok (), s)) with
    | (.error e, s1) => (.error e, s1)
    | (.ok _, s1) =>
      match dev.seek s1.dev off w with
      | .devErr => (.error .deviceError, { s1 with error_flag := true })
      | .ok (p, d') =>
        (.ok (), { s1 with
            dev := d', buf := [], read_pos := 0,
            direction := .idle, position := p })

/-- Modelled from the spec: `pushBack(byte)` makes one previously read byte
available again, provided a read has occurred (reading direction with
`read_pos` advanced); otherwise it is a usage error. -/
def pushBack {δ : Type} (s : Stream δ) (b : Nat) :
    Except StreamError Unit × Stream δ :=
  if s.closed then (.error .usageError, s)
  else if s.error_flag then (.error .deviceError, s)
  else
    match s.direction with
    | .reading =>
      if 0 < s.read_pos then
        (.ok (), { s with
            read_pos := s.read_pos - 1,
            buf := s.buf.set (s.read_pos - 1) b })
      else (.error .usageError, s)
    | _ => (.error .usageError, s)

/-- Modelled from the spec: `close()` flushes pending writes (when the sticky
error allows I/O), releases the device handle and the buffer, and marks the
stream closed; closing twice is a usage error. -/
def close {δ : Type} (dev : Device δ) (s : Stream δ) :
    Except StreamError Unit × Stream δ :=
  if s.closed then (.error .usageError, s)
  else
    match (if isWriting s.direction && !s.error_flag then flushWrite dev s
           else (.ok (), s)) with
    | (.error e, s1) =>
      (.error e, { s1 with closed := true, buf := [], read_pos := 0 })
    | (.ok _, s1) =>
      match dev.close s1.dev with
      | .devErr =>
        (.error .deviceError,
         { s1 with
            closed := true, buf := [], read_pos := 0,
            error_flag := true })
      | .ok d' =>
        (.ok (), { s1 with
            dev := d', closed := true, buf := [],
            read_pos := 0, direction := .idle })

/-- Modelled from the spec: `clearError()` resets both sticky flags without
affecting buffered data. -/
def clearError {δ : Type} (s : Stream δ) : Stream δ :=
  { s with eof_flag := false, error_flag := false }

/-- The spec's buffer-cursor invariant `read_pos <= write_end <= capacity`,
together with the positivity of the buffer capacity that the lifecycle
guarantees (the buffer is sized to `capacity` bytes or the device block
size). -/
def WF {δ : Type} (s : Stream δ) : Prop :=
  s.read_pos ≤ write_end s ∧ write_end s ≤ s.capacity ∧ 0 < s.capacity

instance {δ : Type} (s : Stream δ) : Decidable (WF s) := by
  unfold WF; infer_instance

/-! ### Concrete devices used to exercise the model -/

/-- An in-memory seekable byte device: a faithful file. -/
structure FileDev where
  data : List Nat
  pos : Nat
deriving DecidableEq, Repr

/-- Overwrite `data` at offset `pos` with `bs`, extending at the end. -/
def listWrite (data : List Nat) (pos : Nat) (bs : List Nat) : List Nat :=
  data.take pos ++ bs ++ data.drop (pos + bs.length)

/-- The device operations of the in-memory file: reads return the bytes at
the current offset, writes always succeed in full, seeks to a non-negative
offset succeed. -/
def fileDevice : Device FileDev where
  read d n :=
    let bs := (d.data.drop d.pos).take n
    .ok (bs, { d with pos := d.pos + bs.length })
  write d bs :=
    .ok (bs.length, { data := listWrite d.data d.pos bs, pos := d.pos + bs.length })
  seek d off w :=
    let base : Int :=
      match w with
      | .fromStart => 0
      | .fromCur => d.pos
      | .fromEnd => d.data.length
    let np := base + off
    if np < 0 then .devErr else .ok (np.toNat, { d with pos := np.toNat })
  close d := .ok d

/-- A device that records every write issued to it; reads yield nothing. -/
structure LogDev where
  log : List (List Nat)
deriving DecidableEq, Repr

/-- The device operations of the write-recording device: every write is
appended to the log and reported fully written. -/
def logDevice : Device LogDev where
  read d _ := .ok ([], d)
  write d bs := .ok (bs.length, { log := d.log ++ [bs] })
  seek d _ _ := .ok (0, d)
  close d := .ok d

/-- A device whose writes always report zero progress: the worst case for
the partial-write retry loop. -/
def zeroDevice : Device Unit where
  read d _ := .ok ([], d)
  write _ _ := .ok (0, ())
  seek _ _ _ := .ok (0, ())
  close d := .ok d

/-- A device whose reads always fail: exercises the device-error path. -/
def errDevice : Device Unit where
  read _ _ := .devErr
  write _ bs := .ok (bs.length, ())
  seek _ _ _ := .ok (0, ())
  close d := .ok d

/-- Abstraction invariant of the writing phase over the in-memory file: the
flushed bytes (the device contents) followed by the buffered pending bytes
are exactly the bytes written so far, the device offset sits at the end of
its contents, and the stream is writing (or still idle with nothing
buffered) with clean flags and cursors in range. -/
def WInv (s : Stream FileDev) (written : List Nat) : Prop :=
  s.dev.data ++ s.buf = written ∧
  s.dev.pos = s.dev.data.length ∧
  (s.direction = Direction.writing ∨
    (s.direction = Direction.idle ∧ s.buf = [])) ∧
  s.eof_flag = false ∧ s.error_flag = false ∧ s.closed = false ∧
  s.read_pos = 0 ∧ s.buf.length ≤ s.capacity ∧ 0 < s.capacity

/-- Abstraction invariant of the reading phase over the in-memory file: the
unread buffered bytes followed by the device bytes at and after the device
offset are exactly the bytes still to be read. -/
def RInv (s : Stream FileDev) (rest : List Nat) : Prop :=
  s.buf.drop s.read_pos ++ s.dev.data.drop s.dev.pos = rest ∧
  (s.direction = Direction.reading ∨
    (s.direction = Direction.idle ∧ s.buf = [])) ∧
  s.eof_flag = false ∧ s.error_flag = false ∧ s.closed = false ∧
  s.read_pos ≤ s.buf.length ∧ s.buf.length ≤ s.capacity ∧ 0 < s.capacity

end Spec

/-! ### Theorems -/

open Spec

/-- The retry-loop device-write count is bounded by the loop's termination
measure: twice the pending length, plus one more write when the previous
write is not known to have made zero progress. -/
theorem flushPending_count_le {δ : Type} (dev : Device δ) :
    ∀ (N : Nat) (d : δ) (pending : List Nat) (flag : Bool),
      2 * pending.length + (if flag then 0 else 1) ≤ N →
      (flushPending dev d pending flag).2 ≤
        2 * pending.length + (if flag then 0 else 1) := by
  intro N
  induction N with
  | zero =>
    intro d pending flag h
    cases pending with
    | nil => simp [flushPending]
    | cons p ps => cases flag <;> simp at h
  | succ N ih =>
    intro d pending flag h
    cases pending with
    | nil => simp [flushPending]
    | cons p ps =>
      rw [flushPending]
      cases hw : dev.write d (p :: ps) with
      | devErr => cases flag <;> simp <;> omega
      | ok v =>
        obtain ⟨n, d'⟩ := v
        by_cases hn : n = 0
        · subst hn
          cases flag with
          | true => simp <;> omega
          | false =>
            have h2 : 2 * (p :: ps).length + (if true then 0 else 1) ≤ N := by
              simp at h ⊢; omega
            have hh := ih d' (p :: ps) true h2
            simp at hh ⊢ <;> omega
        · have h2 : 2 * ((p :: ps).drop n).length + (if false then 0 else 1) ≤ N := by
            simp at h ⊢
            omega
          have hh := ih d' ((p :: ps).drop n) false h2
          simp [hn] at hh ⊢
          split <;> omega

/-- Claim C1, counterexample: the claim states that no function in the three
header files contains executable algorithmic logic or control flow, but the
embedded `__riscv_hwprobe_one` branches on its arguments: with a NULL probe
function it returns `ENOSYS` (38) while with a successful probe function it
returns 0, so the function does compute. -/
theorem claim_C1_counterexample :
    (__riscv_hwprobe_one none 4 0).rc = 38 ∧
    (__riscv_hwprobe_one (some (fun p _ _ _ _ => (0, p))) 4 0).rc = 0 ∧
    (__riscv_hwprobe_one none 4 0).rc ≠
      (__riscv_hwprobe_one (some (fun p _ _ _ _ => (0, p))) 4 0).rc :=
  ⟨rfl, rfl, by decide⟩

/-- Claim C1, amended: every function in the three header files is an
external declaration only except `__riscv_hwprobe_one`, a static inline
helper whose three conditional branches (NULL probe function, non-zero
return code, negative returned key) produce four distinct outcomes. -/
theorem claim_C1 :
    __riscv_hwprobe_one none 4 11 = ⟨ENOSYS, none, []⟩ ∧
    __riscv_hwprobe_one (some (fun _ _ _ _ _ => (13, ⟨4, 0⟩))) 4 11 =
      ⟨13, none, [⟨⟨4, 11⟩, 1, 0, none, 0⟩]⟩ ∧
    __riscv_hwprobe_one (some (fun p _ _ _ _ => (0, ⟨-1, p.value⟩))) 4 11 =
      ⟨ENOENT, none, [⟨⟨4, 11⟩, 1, 0, none, 0⟩]⟩ ∧
    __riscv_hwprobe_one (some (fun p _ _ _ _ => (0, ⟨p.key, 7⟩))) 4 11 =
      ⟨0, some 7, [⟨⟨4, 11⟩, 1, 0, none, 0⟩]⟩ :=
  ⟨by decide, by decide, by decide, by decide⟩

/-- Claim C2: with a NULL probe function pointer, `__riscv_hwprobe_one`
returns `ENOSYS` for every key and initial pointee value, invoking no probe
function and leaving the value pointee untouched. -/
theorem claim_C2 :
    ∀ (key : Int) (v : Nat),
      __riscv_hwprobe_one none key v = ⟨ENOSYS, none, []⟩ :=
  fun _ _ => rfl

/-- Claim C3: with a non-NULL probe function, `__riscv_hwprobe_one` writes
through the value pointer exactly when it returns 0; on every non-zero
return the pointee is untouched. -/
theorem claim_C3 (f : HwprobeFuncT) (key : Int) (v : Nat) :
    ((__riscv_hwprobe_one (some f) key v).written.isSome ↔
      (__riscv_hwprobe_one (some f) key v).rc = 0) ∧
    ((__riscv_hwprobe_one (some f) key v).rc ≠ 0 →
      (__riscv_hwprobe_one (some f) key v).written = none) := by
  cases hr : f ⟨key, v⟩ 1 0 none 0 with
  | mk rc pair =>
    by_cases h0 : rc = 0
    · by_cases hk : pair.key < 0
      · subst h0
        simp [__riscv_hwprobe_one, hr, hk, ENOENT]
      · subst h0
        simp [__riscv_hwprobe_one, hr, hk]
    · simp [__riscv_hwprobe_one, hr, h0]

/-- Claim C4: with a non-NULL probe function, `__riscv_hwprobe_one` calls it
exactly once, on a single pair carrying the requested key with `pair_count`
1, `cpusetsize` 0, NULL `cpus` and `flags` 0; a non-zero return code is
propagated unchanged, a negative returned key yields `ENOENT`, and otherwise
the returned pair's value is stored and 0 returned. -/
theorem claim_C4 (f : HwprobeFuncT) (key : Int) (v : Nat) (rc : Int)
    (pair : riscv_hwprobe) (hr : f ⟨key, v⟩ 1 0 none 0 = (rc, pair)) :
    (__riscv_hwprobe_one (some f) key v).calls =
      [⟨⟨key, v⟩, 1, 0, none, 0⟩] ∧
    (rc ≠ 0 → __riscv_hwprobe_one (some f) key v =
      ⟨rc, none, [⟨⟨key, v⟩, 1, 0, none, 0⟩]⟩) ∧
    (rc = 0 → pair.key < 0 → __riscv_hwprobe_one (some f) key v =
      ⟨ENOENT, none, [⟨⟨key, v⟩, 1, 0, none, 0⟩]⟩) ∧
    (rc = 0 → 0 ≤ pair.key → __riscv_hwprobe_one (some f) key v =
      ⟨0, some pair.value, [⟨⟨key, v⟩, 1, 0, none, 0⟩]⟩) := by
  refine ⟨?_, ?_, ?_, ?_⟩
  · by_cases h0 : rc = 0
    · by_cases hk : pair.key < 0
      · subst h0; simp [__riscv_hwprobe_one, hr, hk]
      · subst h0; simp [__riscv_hwprobe_one, hr, hk]
    · simp [__riscv_hwprobe_one, hr, h0]
  · intro h0; simp [__riscv_hwprobe_one, hr, h0]
  · intro h0 hk; subst h0; simp [__riscv_hwprobe_one, hr, hk]
  · intro h0 hk; subst h0
    simp [__riscv_hwprobe_one, hr, not_lt.mpr hk]

/-- Claim C4, witness: a probe function that succeeds with value 7 is called
once with the specified arguments and its value is stored. -/
theorem claim_C4_witness :
    __riscv_hwprobe_one (some (fun p _ _ _ _ => (0, ⟨p.key, 7⟩))) 4 0 =
      ⟨0, some 7, [⟨⟨4, 0⟩, 1, 0, none, 0⟩]⟩ :=
  (claim_C4 (fun p _ _ _ _ => (0, ⟨p.key, 7⟩)) 4 0 0 ⟨4, 7⟩ rfl).2.2.2 rfl
    (by decide)

/-- Claim C7: the partial-write retry loops terminate: the loop issues at
most `2 * pending.length + 1` device writes for any device behaviour, a
device that twice in a row reports zero progress makes the loop stop with a
device error after exactly two writes, and that outcome is surfaced to the
caller of the flushing operation as a `DeviceError`. -/
theorem claim_C7 :
    (∀ (δ : Type) (dev : Device δ) (d : δ) (pending : List Nat) (flag : Bool),
      (flushPending dev d pending flag).2 ≤ 2 * pending.length + 1) ∧
    (∀ (b : Nat) (bs : List Nat),
      flushPending zeroDevice () (b :: bs) false = (.devErr, 2)) ∧
    (∀ (b : Nat) (bs : List Nat),
      (flushWrite zeroDevice
        { openStream () .fullyBuffered (bs.length + 1) with
            buf := b :: bs, direction := .writing }).1 =
        .error .deviceError) := by
  refine ⟨?_, ?_, ?_⟩
  · intro δ dev d pending flag
    have hh := flushPending_count_le dev
      (2 * pending.length + (if flag then 0 else 1)) d pending flag le_rfl
    cases flag <;> simp at hh <;> omega
  · intro b bs
    simp [flushPending, zeroDevice]
  · intro b bs
    simp [flushWrite, flushPending, zeroDevice, openStream]

/-- Claim C10: the source listing totals 1170 lines across the three vendored
headers, and over 95 per cent of those lines are flat declarations with no
logic to port (only the 26-line body of `__riscv_hwprobe_one` is executable
logic). -/
theorem claim_C10 :
    sourceListingLines = 1170 ∧
    95 * sourceListingLines <
      100 * (sourceListingLines - hwprobeOneLogicLines) := by
  decide

open Spec

/-- Switching to writing direction preserves the buffer-cursor invariant. -/
theorem wf_startWriting {δ : Type} (s : Stream δ) (h : WF s) :
    WF (startWriting s) := by
  unfold startWriting
  split <;> simp_all [WF, write_end]

/-- Switching to writing direction does not change the capacity. -/
theorem startWriting_capacity {δ : Type} (s : Stream δ) :
    (startWriting s).capacity = s.capacity := by
  unfold startWriting
  split <;> rfl

/-- A successful flush empties the buffer and changes no other control
field. -/
theorem flushWrite_ok {δ : Type} (dev : Device δ) (s : Stream δ)
    (u : Unit) (s2 : Stream δ) (heq : flushWrite dev s = (.ok u, s2)) :
    s2.capacity = s.capacity ∧ s2.buf = [] ∧ s2.read_pos = 0 ∧
    s2.mode = s.mode ∧ s2.eof_flag = s.eof_flag ∧
    s2.error_flag = s.error_flag ∧ s2.closed = s.closed ∧
    s2.direction = s.direction := by
  unfold flushWrite at heq
  split at heq
  · injection heq with h1 h2
    subst h2
    simp
  · injection heq with h1 h2
    exact Except.noConfusion h1

/-- A failed flush only sets the sticky error flag. -/
theorem flushWrite_err {δ : Type} (dev : Device δ) (s : Stream δ)
    (e : StreamError) (s2 : Stream δ)
    (heq : flushWrite dev s = (.error e, s2)) :
    s2 = { s with error_flag := true } := by
  unfold flushWrite at heq
  split at heq
  · injection heq with h1 h2
    exact Except.noConfusion h1
  · injection heq with h1 h2
    exact h2.symm

/-- Flushing the write buffer preserves the buffer-cursor invariant. -/
theorem wf_flushWrite {δ : Type} (dev : Device δ) (s : Stream δ) (h : WF s) :
    WF (flushWrite dev s).2 := by
  cases heq : flushWrite dev s with
  | mk r s2 =>
    cases r with
    | ok u =>
      obtain ⟨hc, hb, hr, -⟩ := flushWrite_ok dev s u s2 heq
      simp_all [WF, write_end]
    | error e =>
      rw [flushWrite_err dev s e s2 heq]
      simp_all [WF, write_end]

/-- The conditional flush used before a direction switch preserves the
invariant (successful branch). -/
theorem wf_flushIf {δ : Type} (dev : Device δ) (s : Stream δ) (P : Prop)
    [Decidable P] (u : Unit) (s1 : Stream δ) (h : WF s)
    (heq : (if P then flushWrite dev s else (.ok (), s)) = (.ok u, s1)) :
    WF s1 := by
  by_cases hp : P
  · rw [if_pos hp] at heq
    have hh := wf_flushWrite dev s h
    rw [heq] at hh
    exact hh
  · rw [if_neg hp] at heq
    injection heq with h1e h2e
    rw [← h2e]
    exact h

/-- The conditional flush used before a direction switch preserves the
invariant (failing branch). -/
theorem wf_flushIf_err {δ : Type} (dev : Device δ) (s : Stream δ) (P : Prop)
    [Decidable P] (e : StreamError) (s1 : Stream δ) (h : WF s)
    (heq : (if P then flushWrite dev s else (.ok (), s)) = (.error e, s1)) :
    WF s1 := by
  by_cases hp : P
  · rw [if_pos hp] at heq
    rw [flushWrite_err dev _ _ _ heq]
    simpa [WF, write_end] using h
  · rw [if_neg hp] at heq
    injection heq with h1e h2e
    exact Except.noConfusion h1e

/-- `writeByte` preserves the buffer-cursor invariant. -/
theorem wf_writeByte {δ : Type} (dev : Device δ) (s : Stream δ) (b : Nat)
    (h : WF s) : WF (writeByte dev s b).2 := by
  unfold writeByte
  split
  · exact h
  split
  · exact h
  have h1 : WF (startWriting s) := wf_startWriting s h
  split
  case _ e s2 heq =>
    by_cases hc : (startWriting s).capacity ≤ (startWriting s).buf.length
    · rw [if_pos hc] at heq
      rw [flushWrite_err dev _ _ _ heq]
      simp_all [WF, write_end]
    · rw [if_neg hc] at heq
      injection heq with h1e h2e
      rw [← h2e]
      exact h1
  case _ u s2 heq =>
    have hs2 : WF s2 ∧ s2.buf.length < s2.capacity := by
      by_cases hc : (startWriting s).capacity ≤ (startWriting s).buf.length
      · rw [if_pos hc] at heq
        obtain ⟨hcap, hb, hr, -⟩ := flushWrite_ok dev _ _ _ heq
        constructor
        · simp_all [WF, write_end]
        · rw [hb, hcap]
          simpa using h1.2.2
      · rw [if_neg hc] at heq
        injection heq with h1e h2e
        subst h2e
        exact ⟨h1, Nat.lt_of_not_le hc⟩
    obtain ⟨hwf2, hroom⟩ := hs2
    have h3 : WF { s2 with buf := s2.buf ++ [b] } := by
      simp [WF, write_end] at hwf2 ⊢
      omega
    split
    · exact wf_flushWrite dev _ h3
    · split
      · exact wf_flushWrite dev _ h3
      · exact h3
    · exact h3

/-- `writeBytes` preserves the buffer-cursor invariant. -/
theorem wf_writeBytes {δ : Type} (dev : Device δ) :
    ∀ (l : List Nat) (s : Stream δ), WF s → WF (writeBytes dev s l).2 := by
  intro l
  induction l with
  | nil => intro s h; exact h
  | cons b rest ih =>
    intro s h
    unfold writeBytes
    cases hwb : writeByte dev s b with
    | mk r s' =>
      have hwf' : WF s' := by
        have hh := wf_writeByte dev s b h
        rw [hwb] at hh
        exact hh
      cases r with
      | error e => simpa using hwf'
      | ok u =>
        cases hws : writeBytes dev s' rest with
        | mk r2 s'' =>
          have hwf'' : WF s'' := by
            have hh := ih s' hwf'
            rw [hws] at hh
            exact hh
          cases r2 <;> simpa [hws] using hwf''

/-- `flush` preserves the buffer-cursor invariant. -/
theorem wf_flush {δ : Type} (dev : Device δ) (s : Stream δ) (h : WF s) :
    WF (flush dev s).2 := by
  unfold flush
  split
  · exact h
  split
  · exact h
  split
  · exact wf_flushWrite dev s h
  · exact h

/-- `refillRead` preserves the buffer-cursor invariant. -/
theorem wf_refillRead {δ : Type} (dev : Device δ) (s2 : Stream δ)
    (h : WF s2) : WF (refillRead dev s2).2 := by
  unfold refillRead
  split
  · simp [WF, write_end] at h ⊢
    omega
  split
  · exact h
  split
  · simpa [WF, write_end] using h
  · simpa [WF, write_end] using h
  · simp [WF, write_end] at h ⊢
    omega

/-- `readByte` preserves the buffer-cursor invariant. -/
theorem wf_readByte {δ : Type} (dev : Device δ) (s : Stream δ) (h : WF s) :
    WF (readByte dev s).2 := by
  unfold readByte
  split
  · exact h
  split
  · exact h
  split
  case _ e s1 heq => exact wf_flushIf_err dev s _ e s1 h heq
  case _ u s1 heq =>
    have hwf1 : WF s1 := wf_flushIf dev s _ u s1 h heq
    exact wf_refillRead dev _ (by simpa [WF, write_end] using hwf1)

/-- `readBytes` preserves the buffer-cursor invariant. -/
theorem wf_readBytes {δ : Type} (dev : Device δ) :
    ∀ (n : Nat) (s : Stream δ), WF s → WF (readBytes dev s n).2 := by
  intro n
  induction n with
  | zero => intro s h; exact h
  | succ m ih =>
    intro s h
    unfold readBytes
    cases hrb : readByte dev s with
    | mk r s' =>
      have hwf' : WF s' := by
        have hh := wf_readByte dev s h
        rw [hrb] at hh
        exact hh
      cases r with
      | error e => simpa using hwf'
      | ok b => simpa using ih s' hwf'

/-- `seek` preserves the buffer-cursor invariant. -/
theorem wf_seek {δ : Type} (dev : Device δ) (s : Stream δ) (off : Int)
    (w : Whence) (h : WF s) : WF (seek dev s off w).2 := by
  unfold seek
  split
  · exact h
  split
  · exact h
  split
  case _ e s1 heq => exact wf_flushIf_err dev s _ e s1 h heq
  case _ u s1 heq =>
    have hwf1 : WF s1 := wf_flushIf dev s _ u s1 h heq
    split
    · simpa [WF, write_end] using hwf1
    · simp [WF, write_end] at hwf1 ⊢
      omega

/-- `pushBack` preserves the buffer-cursor invariant. -/
theorem wf_pushBack {δ : Type} (s : Stream δ) (b : Nat) (h : WF s) :
    WF (pushBack s b).2 := by
  unfold pushBack
  split
  · exact h
  split
  · exact h
  split
  · split
    · simp [WF, write_end] at h ⊢
      omega
    · exact h
  · exact h

/-- `close` preserves the buffer-cursor invariant. -/
theorem wf_close {δ : Type} (dev : Device δ) (s : Stream δ) (h : WF s) :
    WF (close dev s).2 := by
  unfold close
  split
  · exact h
  split
  case _ e s1 heq =>
    have hwf1 : WF s1 := wf_flushIf_err dev s _ e s1 h heq
    simp [WF, write_end] at hwf1 ⊢
    omega
  case _ u s1 heq =>
    have hwf1 : WF s1 := wf_flushIf dev s _ u s1 h heq
    split
    · simp [WF, write_end] at hwf1 ⊢
      omega
    · simp [WF, write_end] at hwf1 ⊢
      omega

/-- `clearError` preserves the buffer-cursor invariant. -/
theorem wf_clearError {δ : Type} (s : Stream δ) (h : WF s) :
    WF (clearError s) := by
  simpa [WF, write_end, clearError] using h

/-- `openStream` establishes the buffer-cursor invariant. -/
theorem wf_openStream {δ : Type} (d : δ) (m : BufMode) (cap : Nat)
    (hcap : 0 < cap) : WF (openStream d m cap) := by
  simp [WF, write_end, openStream]
  exact hcap

/-- Claim C9: every public stream operation preserves the buffer-cursor
invariant `read_pos <= write_end <= capacity`: `open` establishes it (for the
positive capacities the lifecycle produces) and `readByte`, `readBytes`,
`writeByte`, `writeBytes`, `flush`, `seek`, `pushBack`, `close` and
`clearError` each preserve it. -/
theorem claim_C9 :
    (∀ (δ : Type) (d : δ) (m : BufMode) (cap : Nat), 0 < cap →
      WF (openStream d m cap)) ∧
    (∀ (δ : Type) (dev : Device δ) (s : Stream δ), WF s →
      WF (readByte dev s).2) ∧
    (∀ (δ : Type) (dev : Device δ) (s : Stream δ) (n : Nat), WF s →
      WF (readBytes dev s n).2) ∧
    (∀ (δ : Type) (dev : Device δ) (s : Stream δ) (b : Nat), WF s →
      WF (writeByte dev s b).2) ∧
    (∀ (δ : Type) (dev : Device δ) (s : Stream δ) (l : List Nat), WF s →
      WF (writeBytes dev s l).2) ∧
    (∀ (δ : Type) (dev : Device δ) (s : Stream δ), WF s →
      WF (flush dev s).2) ∧
    (∀ (δ : Type) (dev : Device δ) (s : Stream δ) (off : Int) (w : Whence),
      WF s → WF (seek dev s off w).2) ∧
    (∀ (δ : Type) (s : Stream δ) (b : Nat), WF s → WF (pushBack s b).2) ∧
    (∀ (δ : Type) (dev : Device δ) (s : Stream δ), WF s →
      WF (close dev s).2) ∧
    (∀ (δ : Type) (s : Stream δ), WF s → WF (clearError s)) :=
  ⟨fun _ d m cap h => wf_openStream d m cap h,
   fun _ dev s h => wf_readByte dev s h,
   fun _ dev s n h => wf_readBytes dev n s h,
   fun _ dev s b h => wf_writeByte dev s b h,
   fun _ dev s l h => wf_writeBytes dev l s h,
   fun _ dev s h => wf_flush dev s h,
   fun _ dev s off w h => wf_seek dev s off w h,
   fun _ s b h => wf_pushBack s b h,
   fun _ dev s h => wf_close dev s h,
   fun _ s h => wf_clearError s h⟩

/-- Claim C9, witness: the invariant holds for a freshly opened stream over
the in-memory file device and is preserved across one application of each
public operation. -/
theorem claim_C9_witness :
    WF (openStream (FileDev.mk [3, 4] 0) BufMode.fullyBuffered 2) ∧
    WF (readByte fileDevice
      (openStream (FileDev.mk [3, 4] 0) BufMode.fullyBuffered 2)).2 ∧
    WF (readBytes fileDevice
      (openStream (FileDev.mk [3, 4] 0) BufMode.fullyBuffered 2) 2).2 ∧
    WF (writeByte fileDevice
      (openStream (FileDev.mk [3, 4] 0) BufMode.fullyBuffered 2) 9).2 ∧
    WF (writeBytes fileDevice
      (openStream (FileDev.mk [3, 4] 0) BufMode.fullyBuffered 2) [9, 9, 9]).2 ∧
    WF (flush fileDevice
      (openStream (FileDev.mk [3, 4] 0) BufMode.fullyBuffered 2)).2 ∧
    WF (seek fileDevice
      (openStream (FileDev.mk [3, 4] 0) BufMode.fullyBuffered 2)
      0 Whence.fromStart).2 ∧
    WF (pushBack
      (openStream (FileDev.mk [3, 4] 0) BufMode.fullyBuffered 2) 9).2 ∧
    WF (close fileDevice
      (openStream (FileDev.mk [3, 4] 0) BufMode.fullyBuffered 2)).2 ∧
    WF (clearError
      (openStream (FileDev.mk [3, 4] 0) BufMode.fullyBuffered 2)) :=
  ⟨claim_C9.1 FileDev _ _ 2 (by decide),
   claim_C9.2.1 FileDev fileDevice _ (by decide),
   claim_C9.2.2.1 FileDev fileDevice _ 2 (by decide),
   claim_C9.2.2.2.1 FileDev fileDevice _ 9 (by decide),
   claim_C9.2.2.2.2.1 FileDev fileDevice _ [9, 9, 9] (by decide),
   claim_C9.2.2.2.2.2.1 FileDev fileDevice _ (by decide),
   claim_C9.2.2.2.2.2.2.1 FileDev fileDevice _ 0 Whence.fromStart (by decide),
   claim_C9.2.2.2.2.2.2.2.1 FileDev _ 9 (by decide),
   claim_C9.2.2.2.2.2.2.2.2.1 FileDev fileDevice _ (by decide),
   claim_C9.2.2.2.2.2.2.2.2.2 FileDev _ (by decide)⟩

open Spec

/-- Flushing the write buffer never touches the EOF flag, the closed flag,
the capacity or the mode. -/
theorem flushWrite_flags {δ : Type} (dev : Device δ) (s : Stream δ) :
    (flushWrite dev s).2.eof_flag = s.eof_flag ∧
    (flushWrite dev s).2.closed = s.closed ∧
    (flushWrite dev s).2.capacity = s.capacity ∧
    (flushWrite dev s).2.mode = s.mode := by
  unfold flushWrite
  split <;> simp

/-- Switching to writing direction never touches the EOF flag. -/
theorem startWriting_eof {δ : Type} (s : Stream δ) :
    (startWriting s).eof_flag = s.eof_flag := by
  unfold startWriting
  split <;> rfl

/-- The conditional flush preceding direction switches never touches the
EOF flag. -/
theorem flushIf_eof {δ : Type} (dev : Device δ) (s : Stream δ) (P : Prop)
    [Decidable P] (r : Except StreamError Unit) (s1 : Stream δ)
    (heq : (if P then flushWrite dev s else (.ok (), s)) = (r, s1)) :
    s1.eof_flag = s.eof_flag := by
  by_cases hp : P
  · rw [if_pos hp] at heq
    have hh := (flushWrite_flags dev s).1
    rw [heq] at hh
    exact hh
  · rw [if_neg hp] at heq
    injection heq with h1e h2e
    rw [← h2e]

/-- `writeByte` never changes the EOF flag. -/
theorem writeByte_eof {δ : Type} (dev : Device δ) (s : Stream δ) (b : Nat) :
    (writeByte dev s b).2.eof_flag = s.eof_flag := by
  unfold writeByte
  split
  · rfl
  split
  · rfl
  split
  case _ e s2 heq =>
    rw [flushIf_eof dev (startWriting s) _ _ _ heq, startWriting_eof]
  case _ u s2 heq =>
    have h2 : s2.eof_flag = s.eof_flag := by
      rw [flushIf_eof dev (startWriting s) _ _ _ heq, startWriting_eof]
    split
    · rw [(flushWrite_flags dev _).1]
      simpa using h2
    · split
      · rw [(flushWrite_flags dev _).1]
        simpa using h2
      · simpa using h2
    · simpa using h2

/-- `writeBytes` never changes the EOF flag. -/
theorem writeBytes_eof {δ : Type} (dev : Device δ) :
    ∀ (l : List Nat) (s : Stream δ),
      (writeBytes dev s l).2.eof_flag = s.eof_flag := by
  intro l
  induction l with
  | nil => intro s; rfl
  | cons b rest ih =>
    intro s
    unfold writeBytes
    cases hwb : writeByte dev s b with
    | mk r s' =>
      have h1 : s'.eof_flag = s.eof_flag := by
        have hh := writeByte_eof dev s b
        rw [hwb] at hh
        exact hh
      cases r with
      | error e => simpa using h1
      | ok u =>
        simp only
        cases hws : writeBytes dev s' rest with
        | mk r2 s'' =>
          have h2 : s''.eof_flag = s'.eof_flag := by
            have hh := ih s'
            rw [hws] at hh
            exact hh
          cases r2 <;> simpa using h2.trans h1

/-- `flush` never changes the EOF flag. -/
theorem flush_eof {δ : Type} (dev : Device δ) (s : Stream δ) :
    (flush dev s).2.eof_flag = s.eof_flag := by
  unfold flush
  split
  · rfl
  split
  · rfl
  split
  · exact (flushWrite_flags dev s).1
  · rfl

/-- `seek` never changes the EOF flag. -/
theorem seek_eof {δ : Type} (dev : Device δ) (s : Stream δ) (off : Int)
    (w : Whence) : (seek dev s off w).2.eof_flag = s.eof_flag := by
  unfold seek
  split
  · rfl
  split
  · rfl
  split
  case _ e s1 heq => exact flushIf_eof dev s _ _ _ heq
  case _ u s1 heq =>
    have h1 : s1.eof_flag = s.eof_flag := flushIf_eof dev s _ _ _ heq
    split
    · simpa using h1
    · simpa using h1

/-- `pushBack` never changes the EOF flag. -/
theorem pushBack_eof {δ : Type} (s : Stream δ) (b : Nat) :
    (pushBack s b).2.eof_flag = s.eof_flag := by
  unfold pushBack
  split
  · rfl
  split
  · rfl
  split
  · split
    · simp
    · rfl
  · rfl

/-- `close` never changes the EOF flag. -/
theorem close_eof {δ : Type} (dev : Device δ) (s : Stream δ) :
    (close dev s).2.eof_flag = s.eof_flag := by
  unfold close
  split
  · rfl
  split
  case _ e s1 heq =>
    have h1 : s1.eof_flag = s.eof_flag := flushIf_eof dev s _ _ _ heq
    simpa using h1
  case _ u s1 heq =>
    have h1 : s1.eof_flag = s.eof_flag := flushIf_eof dev s _ _ _ heq
    split
    · simpa using h1
    · simpa using h1

/-- `readByte` keeps a set EOF flag set (stickiness). -/
theorem readByte_eof_sticky {δ : Type} (dev : Device δ) (s : Stream δ)
    (h : s.eof_flag = true) : (readByte dev s).2.eof_flag = true := by
  unfold readByte
  split
  · exact h
  split
  · exact h
  split
  case _ e s1 heq => rw [flushIf_eof dev s _ _ _ heq]; exact h
  case _ u s1 heq =>
    have h1 : s1.eof_flag = true := by
      rw [flushIf_eof dev s _ _ _ heq]; exact h
    unfold refillRead
    split
    · simpa using h1
    · simp [h1]

/-- `readBytes` keeps a set EOF flag set (stickiness). -/
theorem readBytes_eof_sticky {δ : Type} (dev : Device δ) :
    ∀ (n : Nat) (s : Stream δ), s.eof_flag = true →
      (readBytes dev s n).2.eof_flag = true := by
  intro n
  induction n with
  | zero => intro s h; exact h
  | succ m ih =>
    intro s h
    unfold readBytes
    cases hrb : readByte dev s with
    | mk r s' =>
      have h1 : s'.eof_flag = true := by
        have hh := readByte_eof_sticky dev s h
        rw [hrb] at hh
        exact hh
      cases r with
      | error e => simpa using h1
      | ok b => simpa using ih s' h1

/-- On a readable stream, `readByte` reduces to the buffered-read core after
the direction switch. -/
theorem readByte_not_writing {δ : Type} (dev : Device δ) (s : Stream δ)
    (hcl : s.closed = false) (herr : s.error_flag = false)
    (hwr : isWriting s.direction = false) :
    readByte dev s =
      refillRead dev { s with direction := Direction.reading } := by
  unfold readByte
  simp [hcl, herr, hwr]

/-- A refill whose device read returns zero bytes sets the EOF flag and
signals end of stream. -/
theorem refillRead_zero_read {δ : Type} (dev : Device δ) (s2 : Stream δ)
    (d' : δ) (heof : s2.eof_flag = false)
    (hbuf : s2.buf.length ≤ s2.read_pos)
    (hread : dev.read s2.dev s2.capacity = .ok ([], d')) :
    refillRead dev s2 =
      (.error .endOfStream, { s2 with dev := d', eof_flag := true }) := by
  unfold refillRead
  rw [dif_neg (by omega)]
  rw [if_neg (by simp [heof])]
  rw [hread]

/-- A refill whose device read fails sets the error flag, not the EOF
flag. -/
theorem refillRead_dev_err {δ : Type} (dev : Device δ) (s2 : Stream δ)
    (heof : s2.eof_flag = false) (hbuf : s2.buf.length ≤ s2.read_pos)
    (hread : dev.read s2.dev s2.capacity = .devErr) :
    refillRead dev s2 =
      (.error .deviceError, { s2 with error_flag := true }) := by
  unfold refillRead
  rw [dif_neg (by omega)]
  rw [if_neg (by simp [heof])]
  rw [hread]

/-- A refill whose device read yields data refills the buffer and serves the
first byte; no flag changes. -/
theorem refillRead_data {δ : Type} (dev : Device δ) (s2 : Stream δ)
    (b : Nat) (rest : List Nat) (d' : δ) (heof : s2.eof_flag = false)
    (hbuf : s2.buf.length ≤ s2.read_pos)
    (hread : dev.read s2.dev s2.capacity = .ok (b :: rest, d')) :
    refillRead dev s2 =
      (.ok b, { s2 with
          dev := d', buf := (b :: rest).take s2.capacity, read_pos := 1,
          position := s2.position + ((b :: rest).take s2.capacity).length }) := by
  unfold refillRead
  rw [dif_neg (by omega)]
  rw [if_neg (by simp [heof])]
  rw [hread]

/-- Serving a buffered byte advances the read cursor and changes nothing
else. -/
theorem refillRead_buffered {δ : Type} (dev : Device δ) (s2 : Stream δ)
    (h : s2.read_pos < s2.buf.length) :
    refillRead dev s2 =
      (.ok (s2.buf.get ⟨s2.read_pos, h⟩),
       { s2 with read_pos := s2.read_pos + 1 }) := by
  unfold refillRead
  rw [dif_pos h]

/-- Claim C6: the EOF flag becomes true exactly when a device read returns
zero bytes - never on a device error, a successful refill or a buffered
read, and never during a write-side or control operation - and once set it
stays set across every subsequent operation, including failed reads, until
`clearError()` resets it. -/
theorem claim_C6 :
    (∀ (δ : Type) (dev : Device δ) (s : Stream δ) (d' : δ),
      s.closed = false → s.error_flag = false → s.eof_flag = false →
      isWriting s.direction = false → s.buf.length ≤ s.read_pos →
      dev.read s.dev s.capacity = .ok ([], d') →
      (readByte dev s).2.eof_flag = true) ∧
    (∀ (δ : Type) (dev : Device δ) (s : Stream δ),
      s.closed = false → s.error_flag = false → s.eof_flag = false →
      isWriting s.direction = false → s.buf.length ≤ s.read_pos →
      dev.read s.dev s.capacity = .devErr →
      (readByte dev s).2.eof_flag = false ∧
      (readByte dev s).2.error_flag = true) ∧
    (∀ (δ : Type) (dev : Device δ) (s : Stream δ) (b : Nat)
      (rest : List Nat) (d' : δ),
      s.closed = false → s.error_flag = false → s.eof_flag = false →
      isWriting s.direction = false → s.buf.length ≤ s.read_pos →
      dev.read s.dev s.capacity = .ok (b :: rest, d') →
      (readByte dev s).2.eof_flag = false) ∧
    (∀ (δ : Type) (dev : Device δ) (s : Stream δ),
      s.closed = false → s.error_flag = false →
      isWriting s.direction = false → s.read_pos < s.buf.length →
      (readByte dev s).2.eof_flag = s.eof_flag) ∧
    (∀ (δ : Type) (dev : Device δ) (s : Stream δ), s.eof_flag = true →
      (readByte dev s).2.eof_flag = true) ∧
    (∀ (δ : Type) (dev : Device δ) (s : Stream δ) (n : Nat),
      s.eof_flag = true → (readBytes dev s n).2.eof_flag = true) ∧
    (∀ (δ : Type) (dev : Device δ) (s : Stream δ) (b : Nat),
      (writeByte dev s b).2.eof_flag = s.eof_flag) ∧
    (∀ (δ : Type) (dev : Device δ) (s : Stream δ) (l : List Nat),
      (writeBytes dev s l).2.eof_flag = s.eof_flag) ∧
    (∀ (δ : Type) (dev : Device δ) (s : Stream δ),
      (flush dev s).2.eof_flag = s.eof_flag) ∧
    (∀ (δ : Type) (dev : Device δ) (s : Stream δ) (off : Int) (w : Whence),
      (seek dev s off w).2.eof_flag = s.eof_flag) ∧
    (∀ (δ : Type) (s : Stream δ) (b : Nat),
      (pushBack s b).2.eof_flag = s.eof_flag) ∧
    (∀ (δ : Type) (dev : Device δ) (s : Stream δ),
      (close dev s).2.eof_flag = s.eof_flag) ∧
    (∀ (δ : Type) (s : Stream δ), (clearError s).eof_flag = false) := by
  refine ⟨?_, ?_, ?_, ?_, ?_, ?_, ?_, ?_, ?_, ?_, ?_, ?_, ?_⟩
  · intro δ dev s d' hcl herr heof hwr hbuf hread
    rw [readByte_not_writing dev s hcl herr hwr,
        refillRead_zero_read dev { s with direction := Direction.reading }
          d' heof hbuf hread]
  · intro δ dev s hcl herr heof hwr hbuf hread
    rw [readByte_not_writing dev s hcl herr hwr,
        refillRead_dev_err dev { s with direction := Direction.reading }
          heof hbuf hread]
    exact ⟨heof, rfl⟩
  · intro δ dev s b rest d' hcl herr heof hwr hbuf hread
    rw [readByte_not_writing dev s hcl herr hwr,
        refillRead_data dev { s with direction := Direction.reading }
          b rest d' heof hbuf hread]
    exact heof
  · intro δ dev s hcl herr hwr hpos
    rw [readByte_not_writing dev s hcl herr hwr,
        refillRead_buffered dev { s with direction := Direction.reading }
          hpos]
  · intro δ dev s h
    exact readByte_eof_sticky dev s h
  · intro δ dev s n h
    exact readBytes_eof_sticky dev n s h
  · intro δ dev s b
    exact writeByte_eof dev s b
  · intro δ dev s l
    exact writeBytes_eof dev l s
  · intro δ dev s
    exact flush_eof dev s
  · intro δ dev s off w
    exact seek_eof dev s off w
  · intro δ s b
    exact pushBack_eof s b
  · intro δ dev s
    exact close_eof dev s
  · intro δ s
    rfl

/-- Claim C6, witness: on a device that yields no bytes the first read sets
the EOF flag; a failing device read sets the error flag but not the EOF
flag; a buffered byte does not change it; once set it survives another read
and `readBytes`, and `clearError` resets it. -/
theorem claim_C6_witness :
    (readByte zeroDevice (openStream () BufMode.fullyBuffered 4)).2.eof_flag
      = true ∧
    ((readByte errDevice (openStream () BufMode.fullyBuffered 4)).2.eof_flag
      = false ∧
     (readByte errDevice (openStream () BufMode.fullyBuffered 4)).2.error_flag
      = true) ∧
    (readByte fileDevice
      (openStream (FileDev.mk [7] 0) BufMode.fullyBuffered 4)).2.eof_flag
      = false ∧
    (readByte fileDevice
      { openStream (FileDev.mk [] 0) BufMode.fullyBuffered 4 with
          buf := [5], direction := Direction.reading }).2.eof_flag = false ∧
    (readByte zeroDevice
      { openStream () BufMode.fullyBuffered 4 with
          eof_flag := true }).2.eof_flag = true ∧
    (readBytes zeroDevice
      { openStream () BufMode.fullyBuffered 4 with
          eof_flag := true } 3).2.eof_flag = true ∧
    (clearError
      { openStream () BufMode.fullyBuffered 4 with
          eof_flag := true }).eof_flag = false :=
  ⟨claim_C6.1 Unit zeroDevice _ () rfl rfl rfl rfl (by decide) rfl,
   claim_C6.2.1 Unit errDevice _ rfl rfl rfl rfl (by decide) rfl,
   claim_C6.2.2.1 FileDev fileDevice _ 7 [] (FileDev.mk [7] 1)
     rfl rfl rfl rfl (by decide) rfl,
   claim_C6.2.2.2.1 FileDev fileDevice _ rfl rfl rfl (by decide),
   claim_C6.2.2.2.2.1 Unit zeroDevice _ rfl,
   claim_C6.2.2.2.2.2.1 Unit zeroDevice _ 3 rfl,
   claim_C6.2.2.2.2.2.2.2.2.2.2.2.2 Unit _⟩

open Spec

/-- Claim C8, counterexample: the claim quantifies over every line-buffered
stream, but a line-buffered stream of capacity 1 issues three one-byte
device writes for the bytes of a-b-newline, not one three-byte write, due
to the buffer-full flushes. -/
theorem claim_C8_counterexample :
    ((writeBytes logDevice
        (openStream (LogDev.mk []) BufMode.lineBuffered 1)
        [97, 98, 10]).2.dev.log = [[97], [98], [10]]) ∧
    ((writeBytes logDevice
        (openStream (LogDev.mk []) BufMode.lineBuffered 1)
        [97, 98, 10]).2.dev.log).length ≠ 1 := by
  constructor
  · simp [writeBytes, writeByte, openStream, startWriting, flushWrite,
      flushPending, logDevice, isWriting]
  · simp [writeBytes, writeByte, openStream, startWriting, flushWrite,
      flushPending, logDevice, isWriting]

/-- Claim C8, amended: on a freshly opened line-buffered stream whose
capacity is at least 3, writing the bytes of a-b-newline triggers exactly
one device write, of those 3 bytes (the flush happens on the newline byte),
while writing a-b alone triggers no device write until an explicit flush or
close, either of which then writes those 2 bytes. -/
theorem claim_C8 (cap : Nat) (hcap : 3 ≤ cap) :
    ((writeBytes logDevice
        (openStream (LogDev.mk []) BufMode.lineBuffered cap)
        [97, 98, 10]).2.dev.log = [[97, 98, 10]]) ∧
    ((writeBytes logDevice
        (openStream (LogDev.mk []) BufMode.lineBuffered cap)
        [97, 98]).2.dev.log = []) ∧
    ((flush logDevice
        (writeBytes logDevice
          (openStream (LogDev.mk []) BufMode.lineBuffered cap)
          [97, 98]).2).2.dev.log = [[97, 98]]) ∧
    ((close logDevice
        (writeBytes logDevice
          (openStream (LogDev.mk []) BufMode.lineBuffered cap)
          [97, 98]).2).2.dev.log = [[97, 98]]) := by
  have h0 : ¬(cap ≤ 0) := by omega
  have h1 : ¬(cap ≤ 1) := by omega
  have h2 : ¬(cap ≤ 2) := by omega
  have h0' : ¬(cap = 0) := by omega
  refine ⟨?_, ?_, ?_, ?_⟩ <;>
    simp [writeBytes, writeByte, flush, close, openStream, startWriting,
      flushWrite, flushPending, logDevice, isWriting, h0, h1, h2, h0']

/-- Claim C8, witness: the amended claim at capacity 4. -/
theorem claim_C8_witness :
    ((writeBytes logDevice
        (openStream (LogDev.mk []) BufMode.lineBuffered 4)
        [97, 98, 10]).2.dev.log = [[97, 98, 10]]) ∧
    ((writeBytes logDevice
        (openStream (LogDev.mk []) BufMode.lineBuffered 4)
        [97, 98]).2.dev.log = []) ∧
    ((flush logDevice
        (writeBytes logDevice
          (openStream (LogDev.mk []) BufMode.lineBuffered 4)
          [97, 98]).2).2.dev.log = [[97, 98]]) ∧
    ((close logDevice
        (writeBytes logDevice
          (openStream (LogDev.mk []) BufMode.lineBuffered 4)
          [97, 98]).2).2.dev.log = [[97, 98]]) :=
  claim_C8 4 (by decide)

open Spec

/-- Overwriting at the end of the file contents appends. -/
theorem listWrite_at_end (data bs : List Nat) :
    listWrite data data.length bs = data ++ bs := by
  unfold listWrite
  rw [List.take_length, List.drop_eq_nil_of_le (by omega), List.append_nil]

/-- The retry loop over the in-memory file finishes in at most one device
write, leaving the pending bytes at the device offset. -/
theorem flushPending_file (d : FileDev) (pending : List Nat) (flag : Bool) :
    flushPending fileDevice d pending flag =
      (.ok (FileDev.mk (listWrite d.data d.pos pending)
        (d.pos + pending.length)),
       if pending = [] then 0 else 1) := by
  cases pending with
  | nil =>
    simp [flushPending, listWrite]
  | cons p ps =>
    simp [flushPending, fileDevice, listWrite]

/-- Flushing a stream over the in-memory file always succeeds and lands the
buffered bytes at the device offset. -/
theorem flushWrite_file (s : Stream FileDev) :
    flushWrite fileDevice s =
      (.ok (), { s with
          dev := FileDev.mk (listWrite s.dev.data s.dev.pos s.buf)
            (s.dev.pos + s.buf.length),
          buf := [], read_pos := 0,
          position := s.position + s.buf.length }) := by
  unfold flushWrite
  rw [flushPending_file]

/-- A stream whose direction is not reading switches to writing without
touching anything else. -/
theorem startWriting_not_reading {δ : Type} (s : Stream δ)
    (h : ¬ s.direction = Direction.reading) :
    startWriting s = { s with direction := Direction.writing } := by
  unfold startWriting
  cases hd : s.direction with
  | idle => rfl
  | reading => exact absurd hd h
  | writing => rfl

/-- Flushing over the in-memory file preserves the writing-phase
abstraction. -/
theorem winv_flushWrite (s : Stream FileDev) (written : List Nat)
    (h : WInv s written) :
    (flushWrite fileDevice s).1 = .ok () ∧
    WInv (flushWrite fileDevice s).2 written := by
  obtain ⟨hdata, hpos, hdir, heof, herr, hcl, hrp, hlen, hcap⟩ := h
  rw [flushWrite_file]
  refine ⟨rfl, ?_, ?_, ?_, heof, herr, hcl, rfl, by simpa using hcap.le, by simpa using hcap⟩
  · simp only [List.append_nil]
    rw [hpos, listWrite_at_end]
    exact hdata
  · simp only
    rw [hpos, listWrite_at_end]
    simp
  · rcases hdir with h1 | ⟨h1, h2⟩
    · exact Or.inl (by simpa using h1)
    · exact Or.inr ⟨by simpa using h1, rfl⟩

/-- Appending one byte to the write buffer extends the writing-phase
abstraction, provided the buffer has room. -/
theorem winv_append (s2 : Stream FileDev) (written : List Nat) (b : Nat)
    (h : WInv s2 written) (hdirw : s2.direction = Direction.writing)
    (hroom : s2.buf.length < s2.capacity) :
    WInv { s2 with buf := s2.buf ++ [b] } (written ++ [b]) := by
  obtain ⟨hdata, hpos, hdir, heof, herr, hcl, hrp, hlen, hcap⟩ := h
  refine ⟨?_, by simpa using hpos, Or.inl (by simpa using hdirw),
    heof, herr, hcl, hrp, ?_, by simpa using hcap⟩
  · simp only
    rw [← List.append_assoc, hdata]
  · simp only [List.length_append, List.length_cons, List.length_nil]
    omega

/-- One `writeByte` over the in-memory file succeeds and extends the bytes
written so far by the byte. -/
theorem writeByte_winv (s : Stream FileDev) (written : List Nat) (b : Nat)
    (h : WInv s written) :
    (writeByte fileDevice s b).1 = .ok () ∧
    WInv (writeByte fileDevice s b).2 (written ++ [b]) := by
  obtain ⟨hdata, hpos, hdir, heof, herr, hcl, hrp, hlen, hcap⟩ := h
  have hnr : ¬ s.direction = Direction.reading := by
    rcases hdir with h1 | ⟨h1, h2⟩ <;> simp [h1]
  have hw1 : WInv { s with direction := Direction.writing } written :=
    ⟨hdata, hpos, Or.inl rfl, heof, herr, hcl, hrp, hlen, hcap⟩
  unfold writeByte
  rw [if_neg (by simp [hcl]), if_neg (by simp [herr]),
      startWriting_not_reading s hnr]
  split
  case _ e s2 heq =>
    exfalso
    by_cases hfull : s.capacity ≤ s.buf.length
    · rw [if_pos (by simpa using hfull), flushWrite_file] at heq
      injection heq with h1 h2
      exact Except.noConfusion h1
    · rw [if_neg (by simpa using hfull)] at heq
      injection heq with h1 h2
      exact Except.noConfusion h1
  case _ u s2 heq =>
    have hs2 : WInv s2 written ∧ s2.buf.length < s2.capacity ∧
        s2.direction = Direction.writing := by
      by_cases hfull : s.capacity ≤ s.buf.length
      · rw [if_pos (by simpa using hfull), flushWrite_file] at heq
        injection heq with h1 h2
        subst h2
        have hw2 := (winv_flushWrite _ written hw1).2
        rw [flushWrite_file] at hw2
        exact ⟨hw2, by simpa using hcap, rfl⟩
      · rw [if_neg (by simpa using hfull)] at heq
        injection heq with h1 h2
        subst h2
        exact ⟨hw1, by simpa using Nat.lt_of_not_le hfull, rfl⟩
    obtain ⟨hw2, hroom, hdir2⟩ := hs2
    have hwapp : WInv { s2 with buf := s2.buf ++ [b] } (written ++ [b]) :=
      winv_append s2 written b hw2 hdir2 hroom
    split
    · exact winv_flushWrite _ _ hwapp
    · split
      · exact winv_flushWrite _ _ hwapp
      · exact ⟨rfl, hwapp⟩
    · exact ⟨rfl, hwapp⟩

/-- `writeBytes` over the in-memory file succeeds in full and extends the
bytes written so far by the whole range. -/
theorem writeBytes_winv :
    ∀ (l : List Nat) (s : Stream FileDev) (written : List Nat),
      WInv s written →
      (writeBytes fileDevice s l).1 = .ok l.length ∧
      WInv (writeBytes fileDevice s l).2 (written ++ l) := by
  intro l
  induction l with
  | nil => intro s written h; exact ⟨rfl, by simpa using h⟩
  | cons b rest ih =>
    intro s written h
    have h1 := writeByte_winv s written b h
    unfold writeBytes
    cases hwb : writeByte fileDevice s b with
    | mk r s' =>
      rw [hwb] at h1
      cases r with
      | error e => exact absurd h1.1 (by simp)
      | ok u =>
        simp only
        have h2 := ih s' (written ++ [b]) h1.2
        cases hws : writeBytes fileDevice s' rest with
        | mk r2 s'' =>
          rw [hws] at h2
          cases r2 with
          | error e => exact absurd h2.1 (by simp)
          | ok n =>
            have hn : n = rest.length := by
              have := h2.1
              simpa using this
            subst hn
            exact ⟨rfl, by simpa [List.append_assoc] using h2.2⟩

/-- `flush` over the in-memory file succeeds and lands all written bytes in
the device, leaving the buffer empty. -/
theorem flush_winv (s : Stream FileDev) (written : List Nat)
    (h : WInv s written) :
    (flush fileDevice s).1 = .ok () ∧
    WInv (flush fileDevice s).2 written ∧
    (flush fileDevice s).2.buf = [] := by
  obtain ⟨hdata, hpos, hdir, heof, herr, hcl, hrp, hlen, hcap⟩ := h
  unfold flush
  rw [if_neg (by simp [hcl]), if_neg (by simp [herr])]
  rcases hdir with h1 | ⟨h1, h2⟩
  · rw [if_pos (by simp [h1, isWriting])]
    have hres := winv_flushWrite s written
      ⟨hdata, hpos, Or.inl h1, heof, herr, hcl, hrp, hlen, hcap⟩
    refine ⟨hres.1, hres.2, ?_⟩
    rw [flushWrite_file]
  · rw [if_neg (by simp [h1, isWriting])]
    exact ⟨rfl,
      ⟨hdata, hpos, Or.inr ⟨h1, h2⟩, heof, herr, hcl, hrp, hlen, hcap⟩, h2⟩

/-- `seek` to the start over the in-memory file succeeds and establishes the
reading-phase abstraction for the whole device contents. -/
theorem seek_rinv (s : Stream FileDev) (written : List Nat)
    (h : WInv s written) (hbuf : s.buf = []) :
    (seek fileDevice s 0 Whence.fromStart).1 = .ok () ∧
    RInv (seek fileDevice s 0 Whence.fromStart).2 written := by
  obtain ⟨hdata, hpos, hdir, heof, herr, hcl, hrp, hlen, hcap⟩ := h
  have hdw : s.dev.data = written := by
    rw [hbuf] at hdata
    simpa using hdata
  unfold seek
  rw [if_neg (by simp [hcl]), if_neg (by simp [herr])]
  split
  case _ e s1 heq =>
    exfalso
    by_cases hw : isWriting s.direction = true
    · rw [if_pos hw, flushWrite_file] at heq
      injection heq with h1e h2e
      exact Except.noConfusion h1e
    · rw [if_neg hw] at heq
      injection heq with h1e h2e
      exact Except.noConfusion h1e
  case _ u s1 heq =>
    have hfacts : s1.dev.data = written ∧ s1.eof_flag = false ∧
        s1.error_flag = false ∧ s1.closed = false ∧
        s1.capacity = s.capacity := by
      by_cases hw : isWriting s.direction = true
      · rw [if_pos hw, flushWrite_file] at heq
        injection heq with h1e h2e
        subst h2e
        refine ⟨?_, heof, herr, hcl, rfl⟩
        simp only
        rw [hbuf, hpos]
        unfold listWrite
        simpa using hdw
      · rw [if_neg hw] at heq
        injection heq with h1e h2e
        subst h2e
        exact ⟨hdw, heof, herr, hcl, rfl⟩
    obtain ⟨hd1, he1, her1, hc1, hcap1⟩ := hfacts
    simp only [fileDevice]
    norm_num
    refine ⟨?_, Or.inr ⟨rfl, rfl⟩, he1, her1, hc1, by simp, by simp, ?_⟩
    · simpa using hd1
    · simpa [hcap1] using hcap

/-- One `readByte` over the in-memory file, with bytes remaining, returns
the next byte and keeps the reading-phase abstraction. -/
theorem readByte_rinv_cons (s : Stream FileDev) (b : Nat) (rest : List Nat)
    (h : RInv s (b :: rest)) :
    (readByte fileDevice s).1 = .ok b ∧
    RInv (readByte fileDevice s).2 rest := by
  obtain ⟨habs, hdir, heof, herr, hcl, hrp, hlen, hcap⟩ := h
  have hnw : isWriting s.direction = false := by
    rcases hdir with h1 | ⟨h1, h2⟩ <;> simp [h1, isWriting]
  rw [readByte_not_writing fileDevice s hcl herr hnw]
  by_cases hpos : s.read_pos < s.buf.length
  · rw [refillRead_buffered fileDevice { s with direction := Direction.reading }
      (by simpa using hpos)]
    rw [List.drop_eq_getElem_cons hpos, List.cons_append,
      List.cons.injEq] at habs
    obtain ⟨hb, htail⟩ := habs
    refine ⟨by simpa using hb, ?_, Or.inl rfl, heof, herr, hcl, ?_, ?_, ?_⟩
    · simpa using htail
    · simpa using hpos
    · simpa using hlen
    · simpa using hcap
  · have hbempty : s.buf.drop s.read_pos = [] :=
      List.drop_eq_nil_iff.mpr (by omega)
    have hdata : s.dev.data.drop s.dev.pos = b :: rest := by
      rw [hbempty] at habs
      simpa using habs
    obtain ⟨k, hk⟩ : ∃ k, s.capacity = k + 1 := ⟨s.capacity - 1, by omega⟩
    have hbs : (s.dev.data.drop s.dev.pos).take s.capacity =
        b :: rest.take k := by
      rw [hdata, hk, List.take_succ_cons]
    have hread : fileDevice.read s.dev s.capacity =
        .ok (b :: rest.take k,
          FileDev.mk s.dev.data
            (s.dev.pos + (b :: rest.take k).length)) := by
      simp only [fileDevice]
      rw [hbs]
    rw [refillRead_data fileDevice { s with direction := Direction.reading }
      b (rest.take k) _ heof (by simp; omega) hread]
    have hbuf2 : (b :: rest.take k).take s.capacity = b :: rest.take k := by
      rw [hk, List.take_succ_cons, List.take_take]
      simp
    refine ⟨rfl, ?_, Or.inl rfl, heof, herr, hcl, ?_, ?_, ?_⟩
    · simp only [hbuf2, List.length_cons, List.drop_succ_cons,
        List.drop_zero]
      rw [← List.drop_drop, hdata, List.drop_succ_cons]
      rw [List.length_take]
      rcases le_total k rest.length with hkr | hkr
      · rw [min_eq_left hkr]
        exact List.take_append_drop k rest
      · rw [min_eq_right hkr, List.take_of_length_le hkr, List.drop_length]
        simp
    · simp [hbuf2]
    · simp only [hbuf2, List.length_cons, List.length_take]
      rw [hk]
      omega
    · simpa using hcap

/-- One `readByte` over the in-memory file with nothing left signals end of
stream. -/
theorem readByte_rinv_nil (s : Stream FileDev) (h : RInv s []) :
    (readByte fileDevice s).1 = .error .endOfStream := by
  obtain ⟨habs, hdir, heof, herr, hcl, hrp, hlen, hcap⟩ := h
  have hnw : isWriting s.direction = false := by
    rcases hdir with h1 | ⟨h1, h2⟩ <;> simp [h1, isWriting]
  rw [readByte_not_writing fileDevice s hcl herr hnw]
  rw [List.append_eq_nil] at habs
  obtain ⟨hb1, hb2⟩ := habs
  have hbuf : s.buf.length ≤ s.read_pos := List.drop_eq_nil_iff.mp hb1
  have hread : fileDevice.read s.dev s.capacity = .ok ([], s.dev) := by
    simp only [fileDevice]
    rw [hb2]
    simp
  rw [refillRead_zero_read fileDevice { s with direction := Direction.reading }
    s.dev heof (by simpa using hbuf) hread]

/-- `readBytes` over the in-memory file returns the prefix of the remaining
bytes of the requested length. -/
theorem readBytes_rinv :
    ∀ (n : Nat) (s : Stream FileDev) (rest : List Nat), RInv s rest →
      (readBytes fileDevice s n).1 = rest.take n := by
  intro n
  induction n with
  | zero => intro s rest h; simp [readBytes]
  | succ m ih =>
    intro s rest h
    unfold readBytes
    cases rest with
    | nil =>
      have h1 := readByte_rinv_nil s h
      cases hrb : readByte fileDevice s with
      | mk r s' =>
        rw [hrb] at h1
        cases r with
        | ok b => exact absurd h1 (by simp)
        | error e => simp
    | cons b rest' =>
      have h1 := readByte_rinv_cons s b rest' h
      cases hrb : readByte fileDevice s with
      | mk r s' =>
        rw [hrb] at h1
        cases r with
        | error e => exact absurd h1.1 (by simp)
        | ok b2 =>
          have hb : b2 = b := by simpa using h1.1
          subst hb
          simpa using ih s' rest' h1.2

/-- Claim C5: round trip over the in-memory file device.  For every byte
sequence, every buffering mode and every positive capacity, a freshly opened
stream accepts the whole sequence (`writeBytes` succeeds in full), `flush`
and a seek to offset 0 from the start both succeed, and reading the same
total length back yields exactly the bytes written. -/
theorem claim_C5 (ws : List Nat) (mode : BufMode) (cap : Nat)
    (hcap : 0 < cap) :
    (writeBytes fileDevice (openStream (FileDev.mk [] 0) mode cap) ws).1 =
      .ok ws.length ∧
    (flush fileDevice
      (writeBytes fileDevice (openStream (FileDev.mk [] 0) mode cap)
        ws).2).1 = .ok () ∧
    (seek fileDevice
      (flush fileDevice
        (writeBytes fileDevice (openStream (FileDev.mk [] 0) mode cap)
          ws).2).2 0 Whence.fromStart).1 = .ok () ∧
    (readBytes fileDevice
      (seek fileDevice
        (flush fileDevice
          (writeBytes fileDevice (openStream (FileDev.mk [] 0) mode cap)
            ws).2).2 0 Whence.fromStart).2 ws.length).1 = ws := by
  have h0 : WInv (openStream (FileDev.mk [] 0) mode cap) [] := by
    refine ⟨rfl, rfl, Or.inr ⟨rfl, rfl⟩, rfl, rfl, rfl, rfl,
      by simp [openStream], ?_⟩
    simpa [openStream] using hcap
  have hw := writeBytes_winv ws (openStream (FileDev.mk [] 0) mode cap) [] h0
  have hf := flush_winv _ ([] ++ ws) hw.2
  have hs := seek_rinv _ ([] ++ ws) hf.2.1 hf.2.2
  have hr := readBytes_rinv ws.length _ ([] ++ ws) hs.2
  refine ⟨hw.1, hf.1, hs.1, ?_⟩
  rw [hr]
  simp

/-- Claim C5, witness: the round trip at bytes 1-2-3, fully buffered mode,
capacity 2 (so the write path also exercises a buffer-full flush). -/
theorem claim_C5_witness :
    (writeBytes fileDevice
      (openStream (FileDev.mk [] 0) BufMode.fullyBuffered 2) [1, 2, 3]).1 =
      .ok 3 ∧
    (flush fileDevice
      (writeBytes fileDevice
        (openStream (FileDev.mk [] 0) BufMode.fullyBuffered 2)
        [1, 2, 3]).2).1 = .ok () ∧
    (seek fileDevice
      (flush fileDevice
        (writeBytes fileDevice
          (openStream (FileDev.mk [] 0) BufMode.fullyBuffered 2)
          [1, 2, 3]).2).2 0 Whence.fromStart).1 = .ok () ∧
    (readBytes fileDevice
      (seek fileDevice
        (flush fileDevice
          (writeBytes fileDevice
            (openStream (FileDev.mk [] 0) BufMode.fullyBuffered 2)
            [1, 2, 3]).2).2 0 Whence.fromStart).2 3).1 = [1, 2, 3] :=
  claim_C5 [1, 2, 3] BufMode.fullyBuffered 2 (by decide)
